import Mathlib

/-!
# Verification of the Flask_auth credential & token subsystem

Shallow embedding of the repository's core (src/app/utils.py,
src/app/routes.py, src/app/models.py, src/app/schemas.py) in Lean 4.

Modelling conventions:

* Python strings are `List Char` (abbreviated `Str` below); Python's
  `str.startswith` is `List.isPrefixOf`, `str.split(sep)` is `pySplit`
  (splitting at every separator occurrence and keeping empty segments,
  exactly as Python does).
* Third-party cryptographic primitives (argon2-cffi, the `bcrypt`
  package, PyJWT's HS256 signature, base64url/JSON wire encodings) are
  not part of the repository; they are replaced by ideal, executable
  stand-ins that keep exactly their interface-visible behaviour:
  deterministic, injective digests/signatures, self-describing hash
  prefixes (`$argon2...` / `$2b$...`), bcrypt's documented truncation of
  passwords to their first 72 bytes, `ValueError` on a malformed bcrypt
  salt/hash, and PyJWT's `exp <= now` expiry comparison.  Randomness
  (salts) and clocks are passed in as explicit parameters.
* A Python function that can raise an exception which its caller does
  not catch is embedded as returning `Except String α`, the error string
  naming the exception.
-/

deriving instance DecidableEq for Except

namespace FlaskAuth

/-- Python strings are modelled as lists of characters. -/
abbrev Str := List Char

/-! ## Radix-64 stand-in encoding

Real bcrypt digests and JWT base64url segments use a radix-64 alphabet
that contains no `'$'`, no `'.'` and no `' '`.  `esc` is an injective,
executable stand-in with the same alphabet property: it escapes those
three delimiter characters (and the escape character `'%'` itself) and
leaves every other character alone. -/

/-- The delimiter characters the stand-in encoding must keep out of its
output: the bcrypt field delimiter `'$'`, the JWT segment delimiter
`'.'` and the HTTP-header token delimiter `' '`. -/
def isDelim (c : Char) : Bool :=
  c = '$' || c = '.' || c = ' '

/-- Characters that `esc` escapes: the delimiters plus the escape
character itself. -/
def isSpecial (c : Char) : Bool :=
  isDelim c || c = '%'

/-- Escape code for each special character. -/
def escCode (c : Char) : Char :=
  if c = '$' then 's' else if c = '.' then 'd' else if c = ' ' then 'w' else 'p'

/-- One-character block of the escape encoding. -/
def escChar (c : Char) : Str :=
  if isSpecial c then ['%', escCode c] else [c]

/-- Injective stand-in for the radix-64 encodings used by bcrypt digests
and JWT base64url segments: output never contains `'$'`, `'.'` or `' '`. -/
def esc : Str → Str
  | [] => []
  | c :: rest => escChar c ++ esc rest

/-! ## Python `str.split` -/

/-- Prepend a character to the first segment of a split result
(auxiliary for `pySplit`). -/
def consHead (c : Char) : List Str → List Str
  | [] => [[c]]
  | seg :: segs => (c :: seg) :: segs

/-- Python's `s.split(sep)` for a one-character separator: splits at
every occurrence and keeps empty segments (`"a  b".split(' ')` is
`['a', '', 'b']`). -/
def pySplit (sep : Char) : Str → List Str
  | [] => [[]]
  | c :: rest =>
    if c = sep then [] :: pySplit sep rest
    else consHead c (pySplit sep rest)

/-- Split at the first occurrence of `sep`, returning the parts before
and after it (used by the hash parsers). -/
def splitFirst (sep : Char) : Str → Option (Str × Str)
  | [] => none
  | c :: rest =>
    if c = sep then some ([], rest)
    else
      match splitFirst sep rest with
      | some (l, r) => some (c :: l, r)
      | none => none

/-! ## argon2-cffi model (library stand-in)

`PasswordHasher().hash` produces strings of the shape
`$argon2id$v=19$m=65536,t=3,p=4$<salt64>$<digest64>`; `verify` parses a
hash of that shape and recomputes the digest, raising
`VerifyMismatchError` on a wrong password and `InvalidHashError` when
the input does not parse.  The stand-in keeps that interface; the digest
is an ideal injective function of the password (the real digest's
dependence on the salt is dropped — no claim distinguishes salts), and
the salt, really drawn at random, is an explicit parameter. -/

/-- The tag `verify_password` sniffs for (`src/app/utils.py` line 34). -/
def ARGON2_TAG : Str := "$argon2".data

/-- Fixed parameter prefix of the argon2id hashes the library emits. -/
def argon2_prefix : Str := "$argon2id$v=19$m=65536,t=3,p=4$".data

/-- Stand-in for `PasswordHasher().hash(password)` with the random salt
made explicit. -/
def ph_hash (salt password : Str) : Str :=
  argon2_prefix ++ (esc salt ++ '$' :: esc password)

/-- Stand-in for `PasswordHasher().verify(hash, password)`: `.ok` on a
match, `.error` for a wrong password or an unparseable hash. -/
def ph_verify (hash password : Str) : Except String Unit :=
  if argon2_prefix.isPrefixOf hash then
    match splitFirst '$' (hash.drop argon2_prefix.length) with
    | some (_salt64, digest) =>
      if digest = esc password then .ok () else .error "VerifyMismatchError"
    | none => .error "InvalidHashError"
  else .error "InvalidHashError"

/-! ## bcrypt model (library stand-in)

`bcrypt.gensalt(rounds)` yields `$2b$<cost>$<salt64>`;
`bcrypt.hashpw(pw, salt)` parses the salt (raising
`ValueError('Invalid salt')` when it does not parse) and appends a
digest of the first 72 bytes of the password — the 72-byte truncation is
bcrypt's documented behaviour; `bcrypt.checkpw(pw, hash)` re-hashes and
compares, raising the same `ValueError` on a malformed stored hash.  The
digest is an ideal injective function of (cost, salt, truncated
password). -/

/-- Cost segment of a bcrypt salt/hash. -/
def costSeg (rounds : Nat) : Str := esc (Nat.toDigits 10 rounds)

/-- Ideal bcrypt digest of the password's first 72 bytes, as a function
of the raw cost and salt segments of the stored salt. -/
def bcryptDigest (cost saltSeg tpw : Str) : Str :=
  esc (cost ++ ':' :: saltSeg ++ ':' :: tpw)

/-- Stand-in for `bcrypt.gensalt(rounds)` with the random salt body made
explicit. -/
def bcrypt_gensalt (rounds : Nat) (saltBody : Str) : Str :=
  "$2b$".data ++ costSeg rounds ++ '$' :: esc saltBody

/-- Stand-in for `bcrypt.hashpw(password, salt)`. -/
def bcrypt_hashpw (password salt : Str) : Except String Str :=
  match pySplit '$' salt with
  | [] :: tag :: cost :: saltSeg :: [] =>
    if tag = "2b".data then
      .ok (salt ++ '$' :: bcryptDigest cost saltSeg (password.take 72))
    else .error "ValueError: Invalid salt"
  | _ => .error "ValueError: Invalid salt"

/-- Stand-in for `bcrypt.checkpw(password, hash)`. -/
def bcrypt_checkpw (password hash : Str) : Except String Bool :=
  match pySplit '$' hash with
  | [] :: tag :: cost :: saltSeg :: digest :: [] =>
    if tag = "2b".data then
      .ok (decide (digest = bcryptDigest cost saltSeg (password.take 72)))
    else .error "ValueError: Invalid salt"
  | _ => .error "ValueError: Invalid salt"

/-! ## `src/app/utils.py`: `hash_password` and `verify_password`

`HAS_ARGON2` records whether the optional `argon2` import succeeded; it
is passed explicitly, as are the configured bcrypt rounds
(`PASSWORD_HASH_ROUNDS`) and the random salt.  A branch whose library
call can raise an exception that `utils.py` does not catch returns
`.error`. -/

/-- `hash_password(password)` (`src/app/utils.py` lines 21–29). -/
def hash_password (has_argon2 : Bool) (rounds : Nat) (salt password : Str) :
    Except String Str :=
  if has_argon2 then .ok (ph_hash salt password)
  else bcrypt_hashpw password (bcrypt_gensalt rounds salt)

/-- `verify_password(password, password_hash)` (`src/app/utils.py`
lines 32–43): the argon2 branch wraps the library call in
`try/except Exception: return False`; the bcrypt branch calls
`bcrypt.checkpw` bare, so its exceptions propagate. -/
def verify_password (has_argon2 : Bool) (password password_hash : Str) :
    Except String Bool :=
  if has_argon2 && ARGON2_TAG.isPrefixOf password_hash then
    match ph_verify password_hash password with
    | .ok _ => .ok true
    | .error _ => .ok false
  else bcrypt_checkpw password password_hash

/-! ## PyJWT model (library stand-in)

A token is `base64url(header) ++ "." ++ base64url(payload) ++ "." ++
signature`.  `jwt.decode` splits on `'.'` (`DecodeError` unless there
are exactly three segments), checks the header's algorithm against the
allowed list, JSON-decodes the payload, verifies the HS256 signature
over `header ++ "." ++ payload`, and finally checks expiry with
`exp <= now` (so a token is rejected exactly at its `exp`); every
failure raises a `PyJWTError`, which `validate_jwt` turns into `None`.
The JSON/base64url pair is replaced by an injective, executable
length-prefixed encoding through `esc` (same delimiter-free alphabet
property as base64url); the HMAC is replaced by an ideal deterministic
signature, injective in (key, message) — no claim needs unforgeability
beyond that. -/

/-- The JWT claims `generate_jwt` issues (`src/app/utils.py` 49–54):
subject, role, issued-at and expiry (seconds). -/
structure Claims where
  sub : Str
  role : Str
  iat : Nat
  exp : Nat
deriving DecidableEq

/-- One length-prefixed field of the payload wire encoding (the length
in unary to keep the decoder elementary). -/
def seg (s : Str) : Str := List.replicate s.length '1' ++ ':' :: s

/-- Wire encoding of the payload (JSON + base64url stand-in). -/
def encClaims (c : Claims) : Str :=
  esc (seg c.sub ++ (seg c.role ++
    (seg (List.replicate c.iat '1') ++ List.replicate c.exp '1')))

/-- Inverse of `escCode`. -/
def unescCode (x : Char) : Option Char :=
  if x = 's' then some '$' else if x = 'd' then some '.'
  else if x = 'w' then some ' ' else if x = 'p' then some '%' else none

/-- Inverse of `esc` (fails on dangling or unknown escapes). -/
def unesc : Str → Option Str
  | [] => some []
  | c :: rest =>
    if c = '%' then
      match rest with
      | [] => none
      | x :: rest2 =>
        match unescCode x, unesc rest2 with
        | some d, some r => some (d :: r)
        | _, _ => none
    else
      match unesc rest with
      | some r => some (c :: r)
      | none => none

/-- Consume a leading run of `'1'`s. -/
def parseUnary : Str → Nat × Str
  | [] => (0, [])
  | c :: rest =>
    if c = '1' then
      let (n, r) := parseUnary rest
      (n + 1, r)
    else (0, c :: rest)

/-- Decode one length-prefixed field, returning it and the remainder. -/
def parseSeg (s : Str) : Option (Str × Str) :=
  match parseUnary s with
  | (n, ':' :: r) => if n ≤ r.length then some (r.take n, r.drop n) else none
  | _ => none

/-- Decode the payload segment back into claims (`jwt.decode`'s JSON
parse).  The decoder is lax about the unary digits' alphabet — decoding
laxness is harmless since every claim about forged input goes through
the signature check. -/
def decClaims (p : Str) : Option Claims :=
  match unesc p with
  | none => none
  | some un =>
    match parseSeg un with
    | none => none
    | some (subject, r1) =>
      match parseSeg r1 with
      | none => none
      | some (role, r2) =>
        match parseSeg r2 with
        | none => none
        | some (iatS, r3) => some ⟨subject, role, iatS.length, r3.length⟩

/-- Fixed base64url-encoded `{"alg":"HS256","typ":"JWT"}` header. -/
def HEADER64 : Str := "eyJhbGciOiJIUzI1NiJ9".data

/-- Ideal HS256 HMAC stand-in: deterministic and injective in
(key, message). -/
def hmacSign (key msg : Str) : Str := esc (key ++ msg)

/-- `generate_jwt(username, role)` (`src/app/utils.py` lines 47–66),
with the process clock (`datetime.utcnow()`), the configured TTL
(`JWT_ACCESS_TOKEN_EXPIRES`) and the secret (`JWT_SECRET_KEY`) passed
explicitly.  The payload is `{sub: username, role, iat: now,
exp: now + ttl}` signed with HS256. -/
def generate_jwt (secret : Str) (now ttl : Nat) (username role : Str) : Str :=
  (HEADER64 ++ '.' :: encClaims ⟨username, role, now, now + ttl⟩) ++
    '.' :: hmacSign secret (HEADER64 ++ '.' :: encClaims ⟨username, role, now, now + ttl⟩)

/-- `validate_jwt(token)` (`src/app/utils.py` lines 69–78): returns the
decoded claims, or `none` when `jwt.decode` raises any `PyJWTError`. -/
def validate_jwt (secret : Str) (now : Nat) (token : Str) : Option Claims :=
  match pySplit '.' token with
  | [h64, p64, sig] =>
    if h64 = HEADER64 then
      match decClaims p64 with
      | some claims =>
        if sig = hmacSign secret (h64 ++ '.' :: p64) then
          if claims.exp ≤ now then none else some claims
        else none
      | none => none
    else none
  | _ => none

/-! ## `src/app/models.py` -/

/-- The `User` model (`src/app/models.py` lines 13–23).  `created_at`
is the creation timestamp in seconds (the column default is the
save-time clock), `email` is nullable, `username` is the primary key. -/
structure User where
  username : Str
  password_hash : Str
  role : Str
  creation_method : Str
  created_at : Option Nat
  email : Option Str
  is_active : Bool
deriving DecidableEq

/-- The user directory (the `users` table) as the ordered row list the
queries run over; `.first()` is the first match. -/
abbrev UserDB := List User

/-- `User.find_by_username` (`models.py` lines 25–28). -/
def find_by_username (db : UserDB) (username : Str) : Option User :=
  db.find? (fun u => decide (u.username = username))

/-- `User.find_by_email` (`models.py` lines 30–33). -/
def find_by_email (db : UserDB) (email : Str) : Option User :=
  db.find? (fun u => decide (u.email = some email))

/-- `User.find_by_identifier` (`models.py` lines 35–40): the first user
whose username OR email equals the identifier. -/
def find_by_identifier (db : UserDB) (identifier : Str) : Option User :=
  db.find? (fun u =>
    decide (u.username = identifier) || decide (u.email = some identifier))

/-! ## Serialization (`src/app/schemas.py`, `User.to_dict`) -/

/-- JSON values appearing in serialized user objects. -/
inductive JsonVal
  | str (s : Str)
  | boolean (b : Bool)
  | null
deriving DecidableEq

/-- Stand-in for `datetime.isoformat()` on the modelled timestamp. -/
def isoformat (t : Nat) : Str := Nat.toDigits 10 t

/-- `UserSchema().dump(user)` (`src/app/schemas.py` lines 38–45): the
six declared fields, `created_at` in ISO format, nullable fields dumped
as JSON null.  `password_hash` is not a schema field. -/
def user_schema_dump (u : User) : List (Str × JsonVal) :=
  [("username".data, .str u.username),
   ("role".data, .str u.role),
   ("email".data, match u.email with | some e => .str e | none => .null),
   ("creation_method".data, .str u.creation_method),
   ("created_at".data,
     match u.created_at with | some t => .str (isoformat t) | none => .null),
   ("is_active".data, .boolean u.is_active)]

/-- `User.to_dict` (`src/app/models.py` lines 52–61). -/
def to_dict (u : User) : List (Str × JsonVal) :=
  [("username".data, .str u.username),
   ("role".data, .str u.role),
   ("email".data, match u.email with | some e => .str e | none => .null),
   ("creation_method".data, .str u.creation_method),
   ("created_at".data,
     match u.created_at with | some t => .str (isoformat t) | none => .null),
   ("is_active".data, .boolean u.is_active)]

/-! ## `src/app/routes.py` -/

/-- Outcomes of the `jwt_required` decorator (`routes.py` lines 28–58),
each a distinct caller-visible response:
`missing_or_malformed` = 401 `'Missing or invalid authorization
header.'`; `invalid_or_expired` = 401 `'Invalid or expired token.'`;
`unknown_subject` = 404 `'User not found.'`; `account_disabled` = 401
`'User is disabled.'`; `success u` = the wrapped view runs with
`g.user = u`. -/
inductive GateResult
  | missing_or_malformed
  | invalid_or_expired
  | unknown_subject
  | account_disabled
  | success (user : User)
deriving DecidableEq

/-- The exact prefix the gate checks (`routes.py` line 33). -/
def BEARER : Str := "Bearer ".data

/-- Token extraction: `auth_header.split(' ')[1]` (`routes.py` line 36). -/
def bearerToken (h : Str) : Str := (pySplit ' ' h).getD 1 []

/-- The `jwt_required` decorator's decision function (`routes.py`
lines 28–58).  An absent header is `none`; a present-but-empty header
string is falsy in Python and also fails the prefix test, so the single
prefix check models `not auth_header or not
auth_header.startswith('Bearer ')` exactly. -/
def jwt_required (db : UserDB) (secret : Str) (now : Nat)
    (auth_header : Option Str) : GateResult :=
  match auth_header with
  | none => .missing_or_malformed
  | some h =>
    if BEARER.isPrefixOf h then
      match validate_jwt secret now (bearerToken h) with
      | none => .invalid_or_expired
      | some payload =>
        match find_by_username db payload.sub with
        | none => .unknown_subject
        | some user =>
          if user.is_active then .success user else .account_disabled
    else .missing_or_malformed

/-- Outcomes of `login` (`routes.py` lines 108–135) after schema
validation: `invalid_credentials` = 401 `{'error': 'Invalid
credentials.'}` (one fixed response), `success t` = 200 with
`access_token = t`, `token_type = 'bearer'`. -/
inductive LoginResult
  | invalid_credentials
  | success (access_token : Str)
deriving DecidableEq

/-- The `login` route (`routes.py` lines 108–135) after schema
validation, mirroring the short-circuit
`if not user or not user.is_active or not verify_password(...)`:
a missing user or an inactive user never reaches `verify_password`;
an exception escaping `verify_password` propagates (`.error`, a 500 in
Flask). -/
def login (db : UserDB) (has_argon2 : Bool) (secret : Str) (now ttl : Nat)
    (identifier password : Str) : Except String LoginResult :=
  match find_by_identifier db identifier with
  | none => .ok .invalid_credentials
  | some user =>
    if user.is_active then
      match verify_password has_argon2 password user.password_hash with
      | .error e => .error e
      | .ok b =>
        if b then
          .ok (.success (generate_jwt secret now ttl user.username user.role))
        else .ok .invalid_credentials
    else .ok .invalid_credentials

/-- Outcomes of `register` (`routes.py` lines 62–105) after schema
validation: the 409 conflicts, or 201 carrying the serialized user
object from the response body (the `'user'` key; the constant
`'message'` key is elided). -/
inductive RegisterResult
  | username_exists
  | email_exists
  | created (body_user : List (Str × JsonVal))
deriving DecidableEq

/-- Successful branch of `register`: hash the password, build the user
with role `'normal'`, creation_method `'web'`, the column defaults
`created_at = now` and `is_active = True`, save it, and serialize it
with `UserSchema`. -/
def registerCreate (db : UserDB) (has_argon2 : Bool) (rounds : Nat)
    (salt : Str) (created_at : Option Nat) (username password : Str)
    (email : Option Str) : Except String (RegisterResult × UserDB) :=
  match hash_password has_argon2 rounds salt password with
  | .error e => .error e
  | .ok h =>
    .ok (.created (user_schema_dump
        ⟨username, h, "normal".data, "web".data, created_at, email, true⟩),
      db ++ [⟨username, h, "normal".data, "web".data, created_at, email, true⟩])

/-- The `register` route (`routes.py` lines 62–105) after schema
validation: reject an existing username, then (when an email was given)
an existing email, otherwise create the user. -/
def register (db : UserDB) (has_argon2 : Bool) (rounds : Nat) (salt : Str)
    (created_at : Option Nat) (username password : Str) (email : Option Str) :
    Except String (RegisterResult × UserDB) :=
  match find_by_username db username with
  | some _ => .ok (.username_exists, db)
  | none =>
    match email with
    | some e =>
      match find_by_email db e with
      | some _ => .ok (.email_exists, db)
      | none =>
        registerCreate db has_argon2 rounds salt created_at username password email
    | none =>
      registerCreate db has_argon2 rounds salt created_at username password email

/-- The `/me` route (`routes.py` lines 138–142): under the gate's
success it returns the serialized current user. -/
def get_me (db : UserDB) (secret : Str) (now : Nat)
    (auth_header : Option Str) : Option (List (Str × JsonVal)) :=
  match jwt_required db secret now auth_header with
  | .success u => some (user_schema_dump u)
  | _ => none

/-! ## Connecting lemmas -/

/-! ## Claims -/

/-! ## Theorems -/

theorem char_of_isSpecial {a : Char} (ha : isSpecial a = true) :
    a = '$' ∨ a = '.' ∨ a = ' ' ∨ a = '%' := by
  by_cases h1 : a = '$'
  · exact Or.inl h1
  by_cases h2 : a = '.'
  · exact Or.inr (Or.inl h2)
  by_cases h3 : a = ' '
  · exact Or.inr (Or.inr (Or.inl h3))
  by_cases h4 : a = '%'
  · exact Or.inr (Or.inr (Or.inr h4))
  exfalso
  simp [isSpecial, isDelim, h1, h2, h3, h4] at ha

theorem esc_append (a b : Str) : esc (a ++ b) = esc a ++ esc b := by
  induction a with
  | nil => rfl
  | cons c rest ih => simp [esc, ih]

theorem escChar_ne_nil (c : Char) : escChar c ≠ [] := by
  unfold escChar
  split <;> simp

theorem not_delim_mem_escChar {d c : Char} (hd : isDelim d = true)
    (h : d ∈ escChar c) : False := by
  unfold escChar at h
  split at h
  · rcases List.mem_cons.mp h with h1 | h1
    · subst h1; simp [isDelim] at hd
    · simp at h1
      subst h1
      unfold escCode at hd
      split at hd
      · simp [isDelim] at hd
      split at hd
      · simp [isDelim] at hd
      split at hd
      · simp [isDelim] at hd
      · simp [isDelim] at hd
  · simp at h
    subst h
    next hns =>
      exact hns (by simp [isSpecial, hd])

theorem delim_not_mem_esc {d : Char} (hd : isDelim d = true) (s : Str) :
    d ∉ esc s := by
  induction s with
  | nil => simp [esc]
  | cons c rest ih =>
    simp only [esc, List.mem_append]
    rintro (h | h)
    · exact not_delim_mem_escChar hd h
    · exact ih h

theorem dollar_not_mem_esc (s : Str) : '$' ∉ esc s :=
  delim_not_mem_esc (by decide) s

theorem dot_not_mem_esc (s : Str) : '.' ∉ esc s :=
  delim_not_mem_esc (by decide) s

theorem space_not_mem_esc (s : Str) : ' ' ∉ esc s :=
  delim_not_mem_esc (by decide) s

theorem escCode_inj {a b : Char} (ha : isSpecial a = true)
    (hb : isSpecial b = true) (h : escCode a = escCode b) : a = b := by
  rcases char_of_isSpecial ha with rfl | rfl | rfl | rfl <;>
    rcases char_of_isSpecial hb with rfl | rfl | rfl | rfl <;>
      first | rfl | simp [escCode] at h

theorem esc_injective : ∀ {a b : Str}, esc a = esc b → a = b := by
  intro a
  induction a with
  | nil =>
    intro b h
    cases b with
    | nil => rfl
    | cons c rest =>
      exfalso
      simp only [esc] at h
      exact escChar_ne_nil c (List.append_eq_nil.mp h.symm).1
  | cons c rest ih =>
    intro b h
    cases b with
    | nil =>
      exfalso
      simp only [esc] at h
      exact escChar_ne_nil c (List.append_eq_nil.mp h).1
    | cons d rest2 =>
      simp only [esc] at h
      by_cases hc : isSpecial c = true <;> by_cases hd : isSpecial d = true
      · simp only [escChar, hc, hd, if_pos] at h
        simp only [List.cons_append, List.nil_append, List.cons.injEq] at h
        obtain ⟨-, h2, h3⟩ := h
        rw [escCode_inj hc hd h2, ih h3]
      · exfalso
        simp only [escChar, hc, hd, if_pos, if_neg, Bool.not_eq_true] at h
        simp only [List.cons_append, List.nil_append, List.cons.injEq] at h
        apply hd
        rw [← h.1]
        simp [isSpecial]
      · exfalso
        simp only [escChar, hc, hd, if_pos, if_neg, Bool.not_eq_true] at h
        simp only [List.cons_append, List.nil_append, List.cons.injEq] at h
        apply hc
        rw [h.1]
        simp [isSpecial]
      · simp only [escChar, hc, hd, if_neg, Bool.not_eq_true] at h
        simp only [List.cons_append, List.nil_append, List.cons.injEq] at h
        rw [h.1, ih h.2]

theorem pySplit_cons_self (sep : Char) (rest : Str) :
    pySplit sep (sep :: rest) = [] :: pySplit sep rest := by
  simp [pySplit]

theorem pySplit_cons_ne {sep c : Char} (h : ¬c = sep) (rest : Str) :
    pySplit sep (c :: rest) = consHead c (pySplit sep rest) := by
  simp [pySplit, h]

theorem consHead_cons (c : Char) (seg : Str) (segs : List Str) :
    consHead c (seg :: segs) = (c :: seg) :: segs := rfl

theorem pySplit_ne_nil (sep : Char) (s : Str) : pySplit sep s ≠ [] := by
  induction s with
  | nil => simp [pySplit]
  | cons c rest ih =>
    unfold pySplit
    split
    · simp
    · unfold consHead
      split <;> simp

theorem pySplit_no_sep {sep : Char} {s : Str} (h : sep ∉ s) :
    pySplit sep s = [s] := by
  induction s with
  | nil => rfl
  | cons c rest ih =>
    simp only [List.mem_cons, not_or] at h
    rw [pySplit_cons_ne (fun hc => h.1 hc.symm), ih h.2, consHead_cons]

theorem pySplit_append {sep : Char} {a : Str} (h : sep ∉ a) (b : Str) :
    pySplit sep (a ++ sep :: b) = a :: pySplit sep b := by
  induction a with
  | nil => simp [pySplit]
  | cons c rest ih =>
    simp only [List.mem_cons, not_or] at h
    simp only [List.cons_append]
    rw [pySplit_cons_ne (fun hc => h.1 hc.symm), ih h.2, consHead_cons]

theorem pySplit_length (sep : Char) (s : Str) :
    (pySplit sep s).length = s.count sep + 1 := by
  induction s with
  | nil => simp [pySplit]
  | cons c rest ih =>
    unfold pySplit
    by_cases hc : c = sep
    · rw [if_pos hc]
      simp only [List.length_cons, ih, List.count_cons]
      simp [hc]
    · rw [if_neg hc]
      have hne := pySplit_ne_nil sep rest
      match hsp : pySplit sep rest with
      | [] => exact absurd hsp hne
      | seg :: segs =>
        rw [hsp] at ih
        simp only [List.length_cons] at ih
        simp only [consHead, List.length_cons]
        rw [List.count_cons]
        simp [hc, ih]

theorem splitFirst_append {sep : Char} {a : Str} (h : sep ∉ a) (b : Str) :
    splitFirst sep (a ++ sep :: b) = some (a, b) := by
  induction a with
  | nil => simp [splitFirst]
  | cons c rest ih =>
    simp only [List.mem_cons, not_or] at h
    simp only [List.cons_append, splitFirst, List.append_eq]
    rw [if_neg (by exact fun hc => h.1 hc.symm), ih h.2]

theorem ph_verify_ph_hash (salt p q : Str) :
    ph_verify (ph_hash salt q) p =
      if p = q then .ok () else .error "VerifyMismatchError" := by
  unfold ph_verify ph_hash
  rw [if_pos (by
    rw [List.isPrefixOf_iff_prefix]
    exact List.prefix_append _ _)]
  rw [List.drop_left, splitFirst_append (dollar_not_mem_esc salt)]
  by_cases hpq : p = q
  · subst hpq
    simp
  · rw [if_neg hpq]
    show (if esc q = esc p then (Except.ok () : Except String Unit)
        else .error "VerifyMismatchError") = .error "VerifyMismatchError"
    rw [if_neg (fun h => hpq (esc_injective h).symm)]

theorem dollar_not_mem_costSeg (rounds : Nat) : '$' ∉ costSeg rounds :=
  dollar_not_mem_esc _

theorem dollar_not_mem_bcryptDigest (cost saltSeg tpw : Str) :
    '$' ∉ bcryptDigest cost saltSeg tpw :=
  dollar_not_mem_esc _

theorem pySplit_gensalt (rounds : Nat) (saltBody : Str) :
    pySplit '$' (bcrypt_gensalt rounds saltBody) =
      [[], "2b".data, costSeg rounds, esc saltBody] := by
  show pySplit '$' ('$' :: ("2b".data ++ '$' :: (costSeg rounds ++ '$' :: esc saltBody))) = _
  rw [pySplit_cons_self, pySplit_append (by decide),
    pySplit_append (dollar_not_mem_costSeg rounds),
    pySplit_no_sep (dollar_not_mem_esc _)]

theorem bcrypt_hashpw_gensalt (rounds : Nat) (saltBody password : Str) :
    bcrypt_hashpw password (bcrypt_gensalt rounds saltBody) =
      .ok (bcrypt_gensalt rounds saltBody ++
        '$' :: bcryptDigest (costSeg rounds) (esc saltBody) (password.take 72)) := by
  unfold bcrypt_hashpw
  rw [pySplit_gensalt]
  simp

theorem pySplit_bcrypt_hash (rounds : Nat) (saltBody digest : Str)
    (hdig : '$' ∉ digest) :
    pySplit '$' (bcrypt_gensalt rounds saltBody ++ '$' :: digest) =
      [[], "2b".data, costSeg rounds, esc saltBody, digest] := by
  have hshape : bcrypt_gensalt rounds saltBody ++ '$' :: digest =
      '$' :: ("2b".data ++ '$' :: (costSeg rounds ++ '$' :: (esc saltBody ++ '$' :: digest))) := by
    simp [bcrypt_gensalt, List.append_assoc]
  rw [hshape, pySplit_cons_self, pySplit_append (by decide),
    pySplit_append (dollar_not_mem_costSeg rounds),
    pySplit_append (dollar_not_mem_esc _), pySplit_no_sep hdig]

theorem bcryptDigest_inj {cost saltSeg t1 t2 : Str}
    (h : bcryptDigest cost saltSeg t1 = bcryptDigest cost saltSeg t2) :
    t1 = t2 := by
  have h2 := List.append_cancel_left (esc_injective h)
  simpa using h2

theorem bcrypt_checkpw_hashpw (rounds : Nat) (saltBody p q : Str) :
    bcrypt_checkpw p (bcrypt_gensalt rounds saltBody ++
        '$' :: bcryptDigest (costSeg rounds) (esc saltBody) (q.take 72)) =
      .ok (decide (q.take 72 = p.take 72)) := by
  unfold bcrypt_checkpw
  rw [pySplit_bcrypt_hash rounds saltBody _ (dollar_not_mem_bcryptDigest _ _ _)]
  have hdec : decide (bcryptDigest (costSeg rounds) (esc saltBody) (q.take 72)
        = bcryptDigest (costSeg rounds) (esc saltBody) (p.take 72))
      = decide (q.take 72 = p.take 72) :=
    decide_eq_decide.mpr ⟨fun h => bcryptDigest_inj h, fun h => by rw [h]⟩
  simp [hdec]

theorem argon2_tag_prefix_ph_hash (salt pw : Str) :
    ARGON2_TAG.isPrefixOf (ph_hash salt pw) = true := rfl

theorem argon2_tag_not_prefix_bcrypt (rounds : Nat) (saltBody tail : Str) :
    ARGON2_TAG.isPrefixOf (bcrypt_gensalt rounds saltBody ++ tail) = false := rfl

theorem unescCode_escCode {c : Char} (hc : isSpecial c = true) :
    unescCode (escCode c) = some c := by
  rcases char_of_isSpecial hc with rfl | rfl | rfl | rfl <;> rfl

theorem unesc_esc (s : Str) : unesc (esc s) = some s := by
  induction s with
  | nil => rfl
  | cons c rest ih =>
    show unesc (escChar c ++ esc rest) = some (c :: rest)
    by_cases hc : isSpecial c = true
    · rw [escChar, if_pos hc]
      show (match unescCode (escCode c), unesc (esc rest) with
        | some d, some r => some (d :: r)
        | _, _ => none) = some (c :: rest)
      rw [unescCode_escCode hc, ih]
    · rw [escChar, if_neg hc]
      show unesc (c :: esc rest) = some (c :: rest)
      unfold unesc
      rw [if_neg (fun h => hc (by rw [h]; rfl)), ih]

theorem parseUnary_replicate (n : Nat) (t : Str) :
    parseUnary (List.replicate n '1' ++ ':' :: t) = (n, ':' :: t) := by
  induction n with
  | zero => rfl
  | succ k ih =>
    show parseUnary ('1' :: (List.replicate k '1' ++ ':' :: t)) = _
    unfold parseUnary
    rw [if_pos rfl, ih]

theorem parseSeg_seg (a b : Str) : parseSeg (seg a ++ b) = some (a, b) := by
  have hshape : seg a ++ b = List.replicate a.length '1' ++ ':' :: (a ++ b) := by
    simp [seg]
  rw [hshape]
  unfold parseSeg
  rw [parseUnary_replicate]
  show (if a.length ≤ (a ++ b).length then
      some ((a ++ b).take a.length, (a ++ b).drop a.length) else none) = _
  rw [if_pos (by simp), List.take_left, List.drop_left]

theorem decClaims_encClaims (c : Claims) : decClaims (encClaims c) = some c := by
  obtain ⟨su, ro, iat, exp⟩ := c
  unfold decClaims encClaims
  rw [unesc_esc]
  simp [parseSeg_seg]

theorem dot_not_mem_HEADER64 : '.' ∉ HEADER64 := by decide

theorem dot_not_mem_encClaims (c : Claims) : '.' ∉ encClaims c :=
  dot_not_mem_esc _

theorem dot_not_mem_hmacSign (key msg : Str) : '.' ∉ hmacSign key msg :=
  dot_not_mem_esc _

theorem pySplit_token (p64 sig : Str) (hp : '.' ∉ p64) (hs : '.' ∉ sig) :
    pySplit '.' ((HEADER64 ++ '.' :: p64) ++ '.' :: sig) =
      [HEADER64, p64, sig] := by
  have hshape : (HEADER64 ++ '.' :: p64) ++ '.' :: sig =
      HEADER64 ++ '.' :: (p64 ++ '.' :: sig) := by
    simp
  rw [hshape, pySplit_append dot_not_mem_HEADER64, pySplit_append hp,
    pySplit_no_sep hs]

/-- Core round trip: validating an issued token at time `t`. -/
theorem validate_generate (secret : Str) (now ttl t : Nat) (u r : Str) :
    validate_jwt secret t (generate_jwt secret now ttl u r) =
      if now + ttl ≤ t then none else some ⟨u, r, now, now + ttl⟩ := by
  unfold generate_jwt validate_jwt
  rw [pySplit_token (encClaims ⟨u, r, now, now + ttl⟩)
    (hmacSign secret (HEADER64 ++ '.' :: encClaims ⟨u, r, now, now + ttl⟩))
    (dot_not_mem_encClaims _) (dot_not_mem_hmacSign _ _)]
  simp [decClaims_encClaims]

theorem verify_password_argon2 (salt p q : Str) :
    verify_password true p (ph_hash salt q) = .ok (decide (p = q)) := by
  unfold verify_password
  rw [if_pos (show (true && ARGON2_TAG.isPrefixOf (ph_hash salt q)) = true from rfl)]
  rw [ph_verify_ph_hash]
  by_cases h : p = q
  · simp [h]
  · simp [h]

theorem verify_password_bcrypt (ha : Bool) (rounds : Nat) (saltB p q : Str) :
    verify_password ha p (bcrypt_gensalt rounds saltB ++
        '$' :: bcryptDigest (costSeg rounds) (esc saltB) (q.take 72)) =
      .ok (decide (q.take 72 = p.take 72)) := by
  unfold verify_password
  rw [if_neg (by simp [argon2_tag_not_prefix_bcrypt])]
  exact bcrypt_checkpw_hashpw rounds saltB p q

theorem hash_password_argon2 (rounds : Nat) (salt pw : Str) :
    hash_password true rounds salt pw = .ok (ph_hash salt pw) := rfl

theorem hash_password_bcrypt (rounds : Nat) (salt pw : Str) :
    hash_password false rounds salt pw =
      .ok (bcrypt_gensalt rounds salt ++
        '$' :: bcryptDigest (costSeg rounds) (esc salt) (pw.take 72)) := by
  unfold hash_password
  simp [bcrypt_hashpw_gensalt]

/-- `jwt.decode` fails whenever the token does not have exactly three
dot-separated segments. -/
theorem validate_jwt_of_segments_ne_three {secret : Str} {now : Nat}
    {token : Str} (h : (pySplit '.' token).length ≠ 3) :
    validate_jwt secret now token = none := by
  unfold validate_jwt
  rcases hsp : pySplit '.' token with _ | ⟨a, _ | ⟨b, _ | ⟨c, _ | ⟨d, rest⟩⟩⟩⟩
  · rfl
  · rfl
  · rfl
  · rw [hsp] at h
    simp at h
  · rfl

/-- Evaluation of `validate_jwt` on a well-shaped three-segment token. -/
theorem validate_jwt_three (secret : Str) (now : Nat) (p64 sig : Str)
    (hp : '.' ∉ p64) (hs : '.' ∉ sig) :
    validate_jwt secret now ((HEADER64 ++ '.' :: p64) ++ '.' :: sig) =
      match decClaims p64 with
      | some claims =>
        if sig = hmacSign secret (HEADER64 ++ '.' :: p64) then
          if claims.exp ≤ now then none else some claims
        else none
      | none => none := by
  unfold validate_jwt
  rw [pySplit_token p64 sig hp hs]
  rfl

theorem find_by_username_of_mem {db : UserDB} {u : User}
    (hnodup : (db.map User.username).Nodup) (hmem : u ∈ db) :
    find_by_username db u.username = some u := by
  induction db with
  | nil => cases hmem
  | cons v rest ih =>
    rw [List.map_cons, List.nodup_cons] at hnodup
    rcases List.mem_cons.mp hmem with rfl | hmem'
    · unfold find_by_username
      rw [List.find?_cons_of_pos _ (by simp)]
    · by_cases hv : v.username = u.username
      · exact absurd (hv ▸ List.mem_map_of_mem User.username hmem') hnodup.1
      · unfold find_by_username
        rw [List.find?_cons_of_neg _ (by simp [hv])]
        exact ih hnodup.2 hmem'

/-- C1, counterexample: `verify_password` does not fail closed on every
malformed stored hash — a hash that is not argon2-tagged reaches the
bare `bcrypt.checkpw`, which raises `ValueError` instead of returning
`False`. -/
theorem C1_counterexample :
    verify_password true "p".data "nothash".data =
      .error "ValueError: Invalid salt" := by decide

/-- C1 (amended): the argon2-tagged branch always returns a boolean
(fails closed); any other input is handed to `bcrypt.checkpw`
unprotected, which does return a boolean on well-formed bcrypt hashes
but propagates `ValueError` on malformed ones. -/
theorem C1_verify_failure_semantics (ha : Bool) (rounds : Nat)
    (p h saltB q : Str) :
    (ARGON2_TAG.isPrefixOf h = true → ∃ b, verify_password true p h = .ok b) ∧
    ((ha && ARGON2_TAG.isPrefixOf h) = false →
      verify_password ha p h = bcrypt_checkpw p h) ∧
    (∃ b, verify_password ha p (bcrypt_gensalt rounds saltB ++
      '$' :: bcryptDigest (costSeg rounds) (esc saltB) (q.take 72)) = .ok b) := by
  refine ⟨?_, ?_, ?_⟩
  · intro htag
    unfold verify_password
    rw [if_pos (by rw [Bool.true_and]; exact htag)]
    cases hpv : ph_verify h p with
    | ok u => exact ⟨true, rfl⟩
    | error e => exact ⟨false, rfl⟩
  · intro hcond
    unfold verify_password
    rw [if_neg (by simp [hcond])]
  · rw [verify_password_bcrypt]
    exact ⟨_, rfl⟩

/-- C1 witness: both amended clauses at concrete inputs. -/
theorem C1_witness :
    (∃ b, verify_password true "p".data (ph_hash "s".data "q".data) = .ok b) ∧
    verify_password false "p".data "h".data = bcrypt_checkpw "p".data "h".data :=
  ⟨(C1_verify_failure_semantics true 12 "p".data (ph_hash "s".data "q".data)
      "s".data "q".data).1 rfl,
   (C1_verify_failure_semantics false 12 "p".data "h".data
      "s".data "q".data).2.1 rfl⟩

/-- C2: the authorization gate is a strict linear state machine — each
of the four rejection terminals and the success terminal is reached
exactly when the earlier checks pass and its own check fires, in the
fixed order header → token → subject lookup → active flag; in
particular `account_disabled` occurs only with a valid token whose
subject resolves to a user with `is_active = false`. -/
theorem C2_gate_state_machine (db : UserDB) (secret : Str) (now : Nat)
    (hdr : Option Str) :
    (jwt_required db secret now hdr = .missing_or_malformed ↔
      hdr = none ∨ ∃ h, hdr = some h ∧ BEARER.isPrefixOf h = false) ∧
    (jwt_required db secret now hdr = .invalid_or_expired ↔
      ∃ h, hdr = some h ∧ BEARER.isPrefixOf h = true ∧
        validate_jwt secret now (bearerToken h) = none) ∧
    (jwt_required db secret now hdr = .unknown_subject ↔
      ∃ h c, hdr = some h ∧ BEARER.isPrefixOf h = true ∧
        validate_jwt secret now (bearerToken h) = some c ∧
        find_by_username db c.sub = none) ∧
    (jwt_required db secret now hdr = .account_disabled ↔
      ∃ h c u, hdr = some h ∧ BEARER.isPrefixOf h = true ∧
        validate_jwt secret now (bearerToken h) = some c ∧
        find_by_username db c.sub = some u ∧ u.is_active = false) ∧
    (∀ u, jwt_required db secret now hdr = .success u ↔
      ∃ h c, hdr = some h ∧ BEARER.isPrefixOf h = true ∧
        validate_jwt secret now (bearerToken h) = some c ∧
        find_by_username db c.sub = some u ∧ u.is_active = true) := by
  cases hdr with
  | none => simp [jwt_required]
  | some h =>
    by_cases hb : BEARER.isPrefixOf h
    · have hb' : BEARER <+: h := List.isPrefixOf_iff_prefix.mp hb
      cases hv : validate_jwt secret now (bearerToken h) with
      | none => simp [jwt_required, hb, hb', hv]
      | some c =>
        cases hf : find_by_username db c.sub with
        | none => simp [jwt_required, hb, hb', hv, hf]
        | some u =>
          cases hu : u.is_active with
          | false => simp [jwt_required, hb, hb', hv, hf, hu]
          | true =>
            have hrun : jwt_required db secret now (some h) = .success u := by
              simp [jwt_required, hb, hv, hf, hu]
            rw [hrun]
            refine ⟨by simp [hb'], by simp [hb', hv], by simp [hb', hv, hf],
              by simp [hb', hv, hf, hu], ?_⟩
            intro u'
            constructor
            · intro he
              injection he with h1
              exact ⟨h, c, rfl, hb, hv, h1 ▸ hf, h1 ▸ hu⟩
            · rintro ⟨h', c', heq, hbp, hv', hf', hu'⟩
              injection heq with hh
              subst hh
              rw [hv] at hv'
              injection hv' with hc
              subst hc
              rw [hf] at hf'
              injection hf' with huu
              subst huu
              rfl
    · have hb'' : ¬BEARER <+: h :=
        fun hp => hb (List.isPrefixOf_iff_prefix.mpr hp)
      simp [jwt_required, hb, hb'']

/-- C2 witness: the characterization applied to the absent header. -/
theorem C2_witness : jwt_required [] [] 0 none = .missing_or_malformed :=
  (C2_gate_state_machine [] [] 0 none).1.mpr (Or.inl rfl)

/-- C3: a token issued for (subject, role) with positive TTL validates
to claims with that subject and role at any time strictly before
`iat + ttl`, and is rejected at or after `iat + ttl` (the instant `exp`
itself counts as expired). -/
theorem C3_issue_validate_roundtrip (secret su ro : Str) (iat ttl t : Nat)
    (_hpos : 0 < ttl) :
    (t < iat + ttl →
      ∃ c, validate_jwt secret t (generate_jwt secret iat ttl su ro) = some c ∧
        c.sub = su ∧ c.role = ro) ∧
    (iat + ttl ≤ t →
      validate_jwt secret t (generate_jwt secret iat ttl su ro) = none) := by
  constructor
  · intro ht
    rw [validate_generate, if_neg (not_le.mpr ht)]
    exact ⟨_, rfl, rfl, rfl⟩
  · intro ht
    rw [validate_generate, if_pos ht]

/-- C3 witness: a concrete token is accepted one tick before expiry and
rejected exactly at expiry. -/
theorem C3_witness :
    (∃ c, validate_jwt "k".data 4
        (generate_jwt "k".data 0 5 "alice".data "normal".data) = some c ∧
      c.sub = "alice".data ∧ c.role = "normal".data) ∧
    validate_jwt "k".data 5
      (generate_jwt "k".data 0 5 "alice".data "normal".data) = none :=
  ⟨(C3_issue_validate_roundtrip "k".data "alice".data "normal".data 0 5 4
      (by decide)).1 (by decide),
   (C3_issue_validate_roundtrip "k".data "alice".data "normal".data 0 5 5
      (by decide)).2 (by decide)⟩

/-- C4, counterexample: a header consisting of exactly `"Bearer "`
(Bearer prefix, empty token) passes the header-shape check and is
rejected as `invalid_or_expired`, not `missing_or_malformed`. -/
theorem C4_counterexample :
    jwt_required [] "k".data 0 (some "Bearer ".data) = .invalid_or_expired ∧
    jwt_required [] "k".data 0 (some "Bearer ".data) ≠ .missing_or_malformed := by
  decide

/-- C4 (amended): the gate returns `missing_or_malformed` for an absent
header and for a header without the exact `"Bearer "` prefix; a header
with the Bearer prefix but an empty token portion passes the header
check and is rejected one step later as `invalid_or_expired`. -/
theorem C4_missing_or_malformed_cases (db : UserDB) (secret : Str)
    (now : Nat) (h : Str) :
    jwt_required db secret now none = .missing_or_malformed ∧
    (BEARER.isPrefixOf h = false →
      jwt_required db secret now (some h) = .missing_or_malformed) ∧
    (BEARER.isPrefixOf h = true → bearerToken h = [] →
      jwt_required db secret now (some h) = .invalid_or_expired) := by
  refine ⟨rfl, ?_, ?_⟩
  · intro hb
    simp [jwt_required, hb]
  · intro hb htok
    show (if BEARER.isPrefixOf h = true then
        match validate_jwt secret now (bearerToken h) with
        | none => GateResult.invalid_or_expired
        | some payload =>
          match find_by_username db payload.sub with
          | none => GateResult.unknown_subject
          | some user =>
            if user.is_active = true then GateResult.success user
            else GateResult.account_disabled
      else GateResult.missing_or_malformed) = GateResult.invalid_or_expired
    rw [if_pos hb, htok]
    have hval : validate_jwt secret now [] = none := rfl
    rw [hval]

/-- C4 witness: the amended clauses at concrete headers. -/
theorem C4_witness :
    jwt_required [] "k".data 0 (some "x".data) = .missing_or_malformed ∧
    jwt_required [] "k".data 0 (some "Bearer ".data) = .invalid_or_expired :=
  ⟨(C4_missing_or_malformed_cases [] "k".data 0 "x".data).2.1 (by decide),
   (C4_missing_or_malformed_cases [] "k".data 0 "Bearer ".data).2.2
     (by decide) (by decide)⟩

/-- C5, counterexample: verification of a previously produced
argon2-tagged hash is not independent of the configured algorithm —
with the memory-hard algorithm enabled it verifies, with it disabled
the same (password, stored hash) pair is routed to bcrypt and raises. -/
theorem C5_counterexample :
    verify_password true "pw".data (ph_hash "s".data "pw".data) = .ok true ∧
    verify_password false "pw".data (ph_hash "s".data "pw".data) =
      .error "ValueError: Invalid salt" := by decide

/-- C5 (amended): with argon2 support enabled, an argon2-produced hash
always dispatches to the argon2 verifier; a bcrypt-produced hash
dispatches to bcrypt under either availability setting, and its
verification result never depends on the configured cost
(`verify_password` reads no cost parameter; the result is the same for
every `rounds` the hash was produced with).  What fails in the original
claim is only the argon2 case under `HAS_ARGON2 = false`. -/
theorem C5_dispatch_by_tag (ha : Bool) (rounds : Nat) (saltB p q : Str) :
    verify_password true p (ph_hash saltB q) = .ok (decide (p = q)) ∧
    verify_password ha p (bcrypt_gensalt rounds saltB ++
        '$' :: bcryptDigest (costSeg rounds) (esc saltB) (q.take 72)) =
      .ok (decide (q.take 72 = p.take 72)) :=
  ⟨verify_password_argon2 saltB p q, verify_password_bcrypt ha rounds saltB p q⟩

/-- C6: the three login failure causes — unknown identifier, inactive
account, failed password verification — all produce the identical
`invalid_credentials` outcome (the one 401 response with the one body),
so they are indistinguishable to the caller; in particular a correct
password for an inactive account is never even verified. -/
theorem C6_login_single_generic_failure (db : UserDB) (ha : Bool)
    (secret : Str) (now ttl : Nat) (ident pw : Str) :
    (find_by_identifier db ident = none →
      login db ha secret now ttl ident pw = .ok .invalid_credentials) ∧
    (∀ u, find_by_identifier db ident = some u → u.is_active = false →
      login db ha secret now ttl ident pw = .ok .invalid_credentials) ∧
    (∀ u, find_by_identifier db ident = some u → u.is_active = true →
      verify_password ha pw u.password_hash = .ok false →
      login db ha secret now ttl ident pw = .ok .invalid_credentials) := by
  refine ⟨?_, ?_, ?_⟩
  · intro hf
    simp [login, hf]
  · intro u hf hu
    simp [login, hf, hu]
  · intro u hf hu hv
    simp [login, hf, hu, hv]

/-- C6 witness: an inactive account with the correct password and an
unknown identifier produce the very same outcome. -/
theorem C6_witness :
    login [⟨"alice".data, ph_hash "s".data "pw".data, "normal".data,
        "cli".data, none, some "a@b.c".data, false⟩] true "k".data 0 5
      "alice".data "pw".data = .ok .invalid_credentials ∧
    login [⟨"alice".data, ph_hash "s".data "pw".data, "normal".data,
        "cli".data, none, some "a@b.c".data, false⟩] true "k".data 0 5
      "bob".data "pw".data = .ok .invalid_credentials :=
  ⟨(C6_login_single_generic_failure
      [⟨"alice".data, ph_hash "s".data "pw".data, "normal".data,
        "cli".data, none, some "a@b.c".data, false⟩] true "k".data 0 5
      "alice".data "pw".data).2.1
      ⟨"alice".data, ph_hash "s".data "pw".data, "normal".data,
        "cli".data, none, some "a@b.c".data, false⟩ (by decide) rfl,
   (C6_login_single_generic_failure
      [⟨"alice".data, ph_hash "s".data "pw".data, "normal".data,
        "cli".data, none, some "a@b.c".data, false⟩] true "k".data 0 5
      "bob".data "pw".data).1 (by decide)⟩

/-- C7, counterexample: under the bcrypt fallback two distinct
passwords that agree on their first 72 bytes verify against each
other's hash — bcrypt truncates passwords to 72 bytes. -/
theorem C7_counterexample :
    ((List.replicate 72 'a' ++ ['b'] : Str) ≠ List.replicate 72 'a' ++ ['c']) ∧
    hash_password false 12 "s".data (List.replicate 72 'a' ++ ['c']) =
      .ok (bcrypt_gensalt 12 "s".data ++
        '$' :: bcryptDigest (costSeg 12) (esc "s".data)
          ((List.replicate 72 'a' ++ ['c']).take 72)) ∧
    verify_password false (List.replicate 72 'a' ++ ['b'])
      (bcrypt_gensalt 12 "s".data ++
        '$' :: bcryptDigest (costSeg 12) (esc "s".data)
          ((List.replicate 72 'a' ++ ['c']).take 72)) = .ok true := by
  refine ⟨by decide, hash_password_bcrypt 12 "s".data _, by decide⟩

/-- C7 (amended): `verify(P, hash(P))` is true for every password; for
`P ≠ Q`, `verify(P, hash(Q))` is false whenever argon2 is in use, and
under the bcrypt fallback whenever `P` and `Q` already differ within
their first 72 bytes (bcrypt truncation). -/
theorem C7_hash_verify_roundtrip (ha : Bool) (rounds : Nat)
    (salt p q hp hq : Str)
    (hhp : hash_password ha rounds salt p = .ok hp)
    (hhq : hash_password ha rounds salt q = .ok hq) :
    verify_password ha p hp = .ok true ∧
    (ha = true → p ≠ q → verify_password ha p hq = .ok false) ∧
    (p.take 72 ≠ q.take 72 → verify_password ha p hq = .ok false) := by
  cases ha with
  | false =>
    rw [hash_password_bcrypt] at hhp hhq
    injection hhp with hhp
    injection hhq with hhq
    subst hhp
    subst hhq
    refine ⟨?_, ?_, ?_⟩
    · rw [verify_password_bcrypt]
      simp
    · intro hcon
      exact absurd hcon (by simp)
    · intro hne
      rw [verify_password_bcrypt,
        decide_eq_false (fun hc => hne hc.symm)]
  | true =>
    rw [hash_password_argon2] at hhp hhq
    injection hhp with hhp
    injection hhq with hhq
    subst hhp
    subst hhq
    refine ⟨?_, ?_, ?_⟩
    · rw [verify_password_argon2]
      simp
    · intro _ hne
      rw [verify_password_argon2, decide_eq_false hne]
    · intro hne
      rw [verify_password_argon2,
        decide_eq_false (fun hc : p = q => hne (by rw [hc]))]

/-- C7 witness: the round trip at concrete distinct short passwords. -/
theorem C7_witness :
    verify_password true "password1".data
      (ph_hash "s".data "password1".data) = .ok true ∧
    verify_password true "password1".data
      (ph_hash "s".data "password2".data) = .ok false :=
  ⟨(C7_hash_verify_roundtrip true 12 "s".data "password1".data
      "password2".data _ _ rfl rfl).1,
   (C7_hash_verify_roundtrip true 12 "s".data "password1".data
      "password2".data _ _ rfl rfl).2.1 rfl (by decide)⟩

/-- C8: replacing the payload portion or the signature portion of an
issued token by anything different (in particular any one-byte
modification that changes the token string) makes `validate_jwt`
return `none`, at every validation time. -/
theorem C8_tamper_invalid (secret su ro : Str) (iat ttl now : Nat)
    (p' s' : Str) :
    generate_jwt secret iat ttl su ro =
      (HEADER64 ++ '.' :: encClaims ⟨su, ro, iat, iat + ttl⟩) ++
        '.' :: hmacSign secret
          (HEADER64 ++ '.' :: encClaims ⟨su, ro, iat, iat + ttl⟩) ∧
    (p' ≠ encClaims ⟨su, ro, iat, iat + ttl⟩ →
      validate_jwt secret now ((HEADER64 ++ '.' :: p') ++
        '.' :: hmacSign secret
          (HEADER64 ++ '.' :: encClaims ⟨su, ro, iat, iat + ttl⟩)) = none) ∧
    (s' ≠ hmacSign secret
        (HEADER64 ++ '.' :: encClaims ⟨su, ro, iat, iat + ttl⟩) →
      validate_jwt secret now
        ((HEADER64 ++ '.' :: encClaims ⟨su, ro, iat, iat + ttl⟩) ++
          '.' :: s') = none) := by
  refine ⟨rfl, ?_, ?_⟩
  · intro hne
    by_cases hdot : '.' ∈ p'
    · apply validate_jwt_of_segments_ne_three
      rw [pySplit_length]
      have h1 : HEADER64.count '.' = 0 := by decide
      have h2 : (hmacSign secret
          (HEADER64 ++ '.' :: encClaims ⟨su, ro, iat, iat + ttl⟩)).count '.' = 0 :=
        List.count_eq_zero.mpr (dot_not_mem_hmacSign _ _)
      have h3 : p'.count '.' ≠ 0 :=
        fun h0 => (List.count_eq_zero.mp h0) hdot
      simp [List.count_append, List.count_cons, h1, h2]
      omega
    · rw [validate_jwt_three secret now p' _ hdot (dot_not_mem_hmacSign _ _)]
      have hsigne : hmacSign secret
          (HEADER64 ++ '.' :: encClaims ⟨su, ro, iat, iat + ttl⟩) ≠
          hmacSign secret (HEADER64 ++ '.' :: p') := by
        intro hcon
        have hcon' : esc (secret ++
            (HEADER64 ++ '.' :: encClaims ⟨su, ro, iat, iat + ttl⟩)) =
            esc (secret ++ (HEADER64 ++ '.' :: p')) := hcon
        have h4 := List.append_cancel_left
          (List.append_cancel_left (esc_injective hcon'))
        have h5 : encClaims ⟨su, ro, iat, iat + ttl⟩ = p' := by
          simpa using h4
        exact hne h5.symm
      cases hdc : decClaims p' with
      | none => rfl
      | some cl => simp [hsigne]
  · intro hne
    by_cases hdot : '.' ∈ s'
    · apply validate_jwt_of_segments_ne_three
      rw [pySplit_length]
      have h1 : HEADER64.count '.' = 0 := by decide
      have h2 : (encClaims ⟨su, ro, iat, iat + ttl⟩).count '.' = 0 :=
        List.count_eq_zero.mpr (dot_not_mem_encClaims _)
      have h3 : s'.count '.' ≠ 0 :=
        fun h0 => (List.count_eq_zero.mp h0) hdot
      simp [List.count_append, List.count_cons, h1, h2]
      omega
    · rw [validate_jwt_three secret now (encClaims ⟨su, ro, iat, iat + ttl⟩) s'
          (dot_not_mem_encClaims _) hdot]
      simp [decClaims_encClaims, hne]

/-- C8 witness: a concrete token with its payload portion replaced is
rejected. -/
theorem C8_witness :
    validate_jwt "k".data 0 ((HEADER64 ++ '.' :: "x".data) ++
      '.' :: hmacSign "k".data
        (HEADER64 ++ '.' :: encClaims ⟨"a".data, "r".data, 0, 0 + 5⟩)) = none :=
  (C8_tamper_invalid "k".data "a".data "r".data 0 5 0 "x".data
    "y".data).2.1 (by decide)

/-- Helper for C9: the created branch of `register` serializes exactly
a user through `UserSchema`. -/
theorem registerCreate_body {db : UserDB} {ha : Bool} {rounds : Nat}
    {salt : Str} {ca : Option Nat} {un pw : Str} {em : Option Str}
    {body : List (Str × JsonVal)} {db' : UserDB}
    (h : registerCreate db ha rounds salt ca un pw em =
      .ok (.created body, db')) :
    ∃ v, body = user_schema_dump v := by
  unfold registerCreate at h
  cases hh : hash_password ha rounds salt pw with
  | error e =>
    rw [hh] at h
    simp at h
  | ok hsh =>
    rw [hh] at h
    simp at h
    exact ⟨_, h.1.symm⟩

/-- C9: every serialized user object — through `UserSchema.dump`,
through `User.to_dict`, in a 200 body of `/me`, and in a 201 body of
`/register` — carries exactly the six fields username, role, email,
creation_method, created_at, is_active; the `password_hash` key is
absent and the serialization does not depend on the stored hash at
all. -/
theorem C9_serialization_excludes_password_hash (u : User)
    (hpw1 hpw2 : Str) (db : UserDB) (secret : Str) (now : Nat)
    (hdr : Option Str) (ha : Bool) (rounds : Nat) (salt : Str)
    (ca : Option Nat) (un pw : Str) (em : Option Str) :
    ((user_schema_dump u).map Prod.fst =
      ["username".data, "role".data, "email".data, "creation_method".data,
       "created_at".data, "is_active".data]) ∧
    ((to_dict u).map Prod.fst =
      ["username".data, "role".data, "email".data, "creation_method".data,
       "created_at".data, "is_active".data]) ∧
    ("password_hash".data ∉ (user_schema_dump u).map Prod.fst) ∧
    ("password_hash".data ∉ (to_dict u).map Prod.fst) ∧
    (user_schema_dump {u with password_hash := hpw1} =
      user_schema_dump {u with password_hash := hpw2}) ∧
    (to_dict {u with password_hash := hpw1} =
      to_dict {u with password_hash := hpw2}) ∧
    (∀ body, get_me db secret now hdr = some body →
      ∃ v, body = user_schema_dump v) ∧
    (∀ body db', register db ha rounds salt ca un pw em =
        .ok (.created body, db') → ∃ v, body = user_schema_dump v) := by
  have hk1 : (user_schema_dump u).map Prod.fst =
      ["username".data, "role".data, "email".data, "creation_method".data,
       "created_at".data, "is_active".data] := rfl
  have hk2 : (to_dict u).map Prod.fst =
      ["username".data, "role".data, "email".data, "creation_method".data,
       "created_at".data, "is_active".data] := rfl
  refine ⟨hk1, hk2, by rw [hk1]; decide, by rw [hk2]; decide, rfl, rfl, ?_, ?_⟩
  · intro body hbody
    unfold get_me at hbody
    revert hbody
    cases hg : jwt_required db secret now hdr with
    | success v =>
      intro hbody
      exact ⟨v, (Option.some.inj hbody).symm⟩
    | missing_or_malformed => intro hbody; simp at hbody
    | invalid_or_expired => intro hbody; simp at hbody
    | unknown_subject => intro hbody; simp at hbody
    | account_disabled => intro hbody; simp at hbody
  · intro body db' hreg
    unfold register at hreg
    cases em with
    | none =>
      cases hfu : find_by_username db un with
      | some w =>
        rw [hfu] at hreg
        simp at hreg
      | none =>
        rw [hfu] at hreg
        exact registerCreate_body hreg
    | some e =>
      cases hfu : find_by_username db un with
      | some w =>
        rw [hfu] at hreg
        simp at hreg
      | none =>
        rw [hfu] at hreg
        have hreg2 : (match find_by_email db e with
            | some _ => (Except.ok (RegisterResult.email_exists, db) :
                Except String (RegisterResult × UserDB))
            | none => registerCreate db ha rounds salt ca un pw (some e)) =
            .ok (.created body, db') := hreg
        cases hfe : find_by_email db e with
        | some w =>
          rw [hfe] at hreg2
          simp at hreg2
        | none =>
          rw [hfe] at hreg2
          exact registerCreate_body hreg2

/-- C9 witness: the route-level clauses at a concrete request. -/
theorem C9_witness :
    ∃ v, user_schema_dump
        ⟨"alice".data, ph_hash "s".data "password1".data, "normal".data,
          "web".data, some 0, none, true⟩ = user_schema_dump v :=
  (C9_serialization_excludes_password_hash
    ⟨"alice".data, ph_hash "s".data "password1".data, "normal".data,
      "web".data, some 0, none, true⟩ [] [] [] "k".data 0 none true 12
    "s".data (some 0) "alice".data "password1".data none).2.2.2.2.2.2.2
    (user_schema_dump
      ⟨"alice".data, ph_hash "s".data "password1".data, "normal".data,
        "web".data, some 0, none, true⟩)
    [⟨"alice".data, ph_hash "s".data "password1".data, "normal".data,
      "web".data, some 0, none, true⟩] rfl

/-- C10: when login resolves the identifier (in particular an email
address) to an active user whose password verifies, the issued token's
subject is the user's username — not the supplied identifier — so the
gate's `find_by_username` lookup resolves the same user (usernames are
the primary key, hence unique). -/
theorem C10_login_token_subject_is_username (db : UserDB) (ha : Bool)
    (secret ident pw : Str) (now ttl t : Nat) (u : User)
    (hnodup : (db.map User.username).Nodup)
    (hfind : find_by_identifier db ident = some u)
    (hact : u.is_active = true)
    (hver : verify_password ha pw u.password_hash = .ok true)
    (ht : t < now + ttl) :
    login db ha secret now ttl ident pw =
      .ok (.success (generate_jwt secret now ttl u.username u.role)) ∧
    validate_jwt secret t (generate_jwt secret now ttl u.username u.role) =
      some ⟨u.username, u.role, now, now + ttl⟩ ∧
    find_by_username db u.username = some u := by
  refine ⟨?_, ?_, ?_⟩
  · simp [login, hfind, hact, hver]
  · rw [validate_generate, if_neg (not_le.mpr ht)]
  · exact find_by_username_of_mem hnodup (List.mem_of_find?_eq_some hfind)

/-- C10 witness: a concrete email login issues a token for the
username. -/
theorem C10_witness :
    login [⟨"alice".data, ph_hash "s".data "pw".data, "platinum".data,
        "web".data, none, some "a@b.c".data, true⟩] true "k".data 0 5
      "a@b.c".data "pw".data =
      .ok (.success (generate_jwt "k".data 0 5 "alice".data
        "platinum".data)) ∧
    validate_jwt "k".data 0 (generate_jwt "k".data 0 5 "alice".data
      "platinum".data) = some ⟨"alice".data, "platinum".data, 0, 5⟩ ∧
    find_by_username [⟨"alice".data, ph_hash "s".data "pw".data,
        "platinum".data, "web".data, none, some "a@b.c".data, true⟩]
      "alice".data =
      some ⟨"alice".data, ph_hash "s".data "pw".data, "platinum".data,
        "web".data, none, some "a@b.c".data, true⟩ :=
  C10_login_token_subject_is_username
    [⟨"alice".data, ph_hash "s".data "pw".data, "platinum".data,
      "web".data, none, some "a@b.c".data, true⟩] true "k".data
    "a@b.c".data "pw".data 0 5 0
    ⟨"alice".data, ph_hash "s".data "pw".data, "platinum".data,
      "web".data, none, some "a@b.c".data, true⟩
    (by decide) (by decide) rfl (by decide) (by decide)

end FlaskAuth
